import Mathlib

/-!
# The cannon game: movement, drowning and boat rules

A shallow embedding of the gameplay code of `201425221.cpp`: the tile grid built
by `initGL`/`create_block`, the per-frame player update `draw_player`, the
clock-driven boat update `draw_boat`, and the `keyboard` callback that sets the
pending move.

Modelling conventions.

* The C++ globals `player_pos[3]`, `pmov`, `boatx`, `boatz` are the fields of
  one record, `Game`; a function that mutates globals takes a `Game` and returns
  the new one.
* The `float` globals are modelled as exact rationals.  The model agrees with the
  binary32 arithmetic of the program on the values described by `exactF32`
  (multiples of `1/2` of magnitude at most `2^20`): these, and the results of
  `+ 2`, `- 2`, `- 0.5` on them, are representable in binary32, so the program
  computes them without rounding.  Every value the game reaches from its start is
  of this kind.  A theorem that states the value computed by `+= 2`, `-= 2` or
  `-= 0.5` assumes `exactF32` of the operand; comparisons are exact on every
  value.
* The clock reading is converted to `int`; the model of the conversion is the
  program's for readings `0 ≤ t < 2^31`, and a theorem about `draw_boat` assumes
  this range.
* `exit(EXIT_SUCCESS)` inside `draw_player` is modelled by the outcome
  `Outcome.gameOver`, returned together with the globals as they are at the
  moment of the call.
* Rendering calls (`glm::translate`, `glUniformMatrix4fv`, `draw3DObject`) do
  not touch the gameplay globals.  Lines 827-830 of the source read the player
  position back from the last column of `identity * translate(player_pos)`,
  which is `player_pos` itself.
-/

namespace CannonGame

/-! ## Data model -/

/-- One entry of `barr`: the gameplay fields of `struct block`
(`type` is `0` for ground, `1` for water). -/
structure block where
  type : Int
  y : Int
  x : Int
  z : Int
deriving DecidableEq, Repr

/-- The gameplay globals: `player_pos[0..2]`, `pmov`, `boatx`, `boatz`. -/
structure Game where
  player_pos0 : ℚ
  player_pos1 : ℚ
  player_pos2 : ℚ
  pmov : Int
  boatx : ℚ
  boatz : ℚ
deriving DecidableEq

/-- How a call of `draw_player` ends: `gameOver` when it prints "game over" and
exits the process, `drawn` when it returns after drawing the player. -/
inductive Outcome where
  | gameOver
  | drawn
deriving DecidableEq, Repr

/-! ## World grid -/

/-- Function `create_block(j,k,type)`: append a tile to `barr` (the length of the
list is `block_count`). -/
def create_block (j k type : Int) (barr : List block) : List block :=
  barr ++ [{ type := type, y := 0, x := j, z := k }]

/-- The body of the inner loop of `initGL` for one pair `(j,k)`. -/
def initGL_tile (j k : Int) (barr : List block) : List block :=
  if j ≠ 6 ∧ j ≠ 7 then create_block j k 0 barr else create_block j k 1 barr

/-- The inner loop `for(k=0;k<10;k++)` of `initGL`. -/
def initGL_row (j : Int) (barr : List block) : List block :=
  (List.range 10).foldl (fun b k => initGL_tile j (k : Int) b) barr

/-- The tile list `barr` after the grid loop of `initGL`
(`for(j=0;j<15;j++) for(k=0;k<10;k++) ...`), starting from `block_count = 0`. -/
def initGL : List block :=
  (List.range 15).foldl (fun b j => initGL_row (j : Int) b) []

/-- Function `create_player`: the player starts at `(2,2,2)`. -/
def create_player (g : Game) : Game :=
  { g with player_pos0 := 2, player_pos1 := 2, player_pos2 := 2 }

/-- The globals when the first frame starts: `pmov`, `boatx`, `boatz` are
zero-initialised globals and `create_player` has run. -/
def initialGame : Game :=
  create_player
    { player_pos0 := 0, player_pos1 := 0, player_pos2 := 0, pmov := 0, boatx := 0, boatz := 0 }

/-! ## Player update -/

/-- The values on which the binary32 arithmetic of `draw_player` is exact:
multiples of `1/2` of magnitude at most `2^20`.  Such a value has at most 22
significant bits, and so has the result of `+ 2`, `- 2` or `- 0.5` on it; binary32
has 24, so the program computes the result without rounding. -/
def exactF32 (v : ℚ) : Prop := ∃ n : ℤ, v = (n : ℚ) / 2 ∧ -2097152 ≤ n ∧ n ≤ 2097152

/-- The part `player_pos[0]>=12 && player_pos[0]<14` of the drowning condition:
the test that the player is over the water channel. -/
def overWater (x : ℚ) : Prop := x ≥ 12 ∧ x < 14

instance (x : ℚ) : Decidable (overWater x) := by
  unfold overWater; infer_instance

/-- The four bound tests of the drowning condition:
`player_pos[0]<0 || player_pos[0]>=30 || player_pos[2]>=20 || player_pos[2]<0`. -/
def outOfBounds (x z : ℚ) : Prop := x < 0 ∨ x ≥ 30 ∨ z ≥ 20 ∨ z < 0

instance (x z : ℚ) : Decidable (outOfBounds x z) := by
  unfold outOfBounds; infer_instance

/-- The condition of line 811 (`//drowning conditions`), in the source's order. -/
def drowning (g : Game) : Prop :=
  g.player_pos0 < 0 ∨ g.player_pos0 ≥ 30 ∨ g.player_pos2 ≥ 20 ∨ g.player_pos2 < 0 ∨
    (g.player_pos0 ≥ 12 ∧ g.player_pos0 < 14 ∧ g.player_pos2 ≠ g.boatz)

instance (g : Game) : Decidable (drowning g) := by
  unfold drowning; infer_instance

/-- The `else` branch of `draw_player`: four independent `if`s on `pmov`, then
`pmov=0`.  The additions are exact; they are the program's binary32 additions
when the coordinate satisfies `exactF32`. -/
def applyMove (g : Game) : Game :=
  let g1 := if g.pmov = 3 then { g with player_pos0 := g.player_pos0 + 2 } else g
  let g2 := if g1.pmov = 2 then { g1 with player_pos0 := g1.player_pos0 - 2 } else g1
  let g3 := if g2.pmov = 4 then { g2 with player_pos2 := g2.player_pos2 + 2 } else g2
  let g4 := if g3.pmov = 1 then { g3 with player_pos2 := g3.player_pos2 - 2 } else g3
  { g4 with pmov := 0 }

/-- Function `draw_player`: the death check, then the drowning decrement or the
pending move.  The subtraction of `0.5` is exact; it is the program's binary32
subtraction when the height satisfies `exactF32`. -/
def draw_player (g : Game) : Outcome × Game :=
  if g.player_pos1 < -1 then
    (Outcome.gameOver, g)
  else if drowning g then
    (Outcome.drawn, { g with player_pos1 := g.player_pos1 - 1 / 2 })
  else
    (Outcome.drawn, applyMove g)

/-! ## Boat update -/

/-- The statement `int a = glfwGetTime();`: conversion of the clock reading
(seconds, a `double`) to `int` truncates toward zero.  The clock counts seconds
from `glfwInit` and is never set by the program, so the reading is non-negative.
The definition is the conversion for readings inside the range of `int`,
`-2^31 < t < 2^31`; beyond it (68 years of running) the C++ conversion
overflows and this definition does not describe it, so the theorems about
`draw_boat` assume `0 ≤ t < 2^31`. -/
def glfwGetTimeInt (t : ℚ) : Int := if 0 ≤ t then ⌊t⌋ else ⌈t⌉

/-- Function `draw_boat` at clock reading `t`; `%` on `int` is the C++ remainder
(`Int.tmod`).  The `else` branch assigns `boatz` only. -/
def draw_boat (t : ℚ) (g : Game) : Game :=
  let a := glfwGetTimeInt t
  if a.tmod 10 = 0 then
    { g with boatx := 12, boatz := 0 }
  else
    { g with boatz := ((a.tmod 10 * 2 : Int) : ℚ) }

/-! ## Frames -/

/-- What the rest of the main loop hands to one call of `draw_player`: the value
of `pmov` left by the `keyboard` callbacks run from `glfwPollEvents`, and the
boat position left by `draw_boat`.  All three are taken as arbitrary here. -/
structure FrameInput where
  pmov : Int
  boatx : ℚ
  boatz : ℚ

/-- One frame as `draw_player` sees it. -/
def frame (g : Game) (i : FrameInput) : Outcome × Game :=
  draw_player { g with pmov := i.pmov, boatx := i.boatx, boatz := i.boatz }

/-- Consecutive frames; the process ends at the first `gameOver`. -/
def runFrames : Game → List FrameInput → Outcome × Game
  | g, [] => (Outcome.drawn, g)
  | g, i :: rest =>
    match frame g i with
    | (Outcome.gameOver, g1) => (Outcome.gameOver, g1)
    | (Outcome.drawn, g1) => runFrames g1 rest

/-- The frame took the drowning branch of `draw_player`: it returned with the
height lowered by `0.5` and nothing else changed. -/
def drowningFrame (g : Game) : Prop :=
  draw_player g = (Outcome.drawn, { g with player_pos1 := g.player_pos1 - 1 / 2 })

/-! ## Keyboard input -/

/-- Action code `GLFW_RELEASE` of `GLFW/glfw3.h`. -/
def GLFW_RELEASE : Int := 0

/-- Action code `GLFW_PRESS` of `GLFW/glfw3.h`. -/
def GLFW_PRESS : Int := 1

/-- Key code `GLFW_KEY_C` of `GLFW/glfw3.h`. -/
def GLFW_KEY_C : Int := 67

/-- Key code `GLFW_KEY_P` of `GLFW/glfw3.h`. -/
def GLFW_KEY_P : Int := 80

/-- Key code `GLFW_KEY_X` of `GLFW/glfw3.h`. -/
def GLFW_KEY_X : Int := 88

/-- Key code `GLFW_KEY_ESCAPE` of `GLFW/glfw3.h`. -/
def GLFW_KEY_ESCAPE : Int := 256

/-- Key code `GLFW_KEY_RIGHT` of `GLFW/glfw3.h`. -/
def GLFW_KEY_RIGHT : Int := 262

/-- Key code `GLFW_KEY_LEFT` of `GLFW/glfw3.h`. -/
def GLFW_KEY_LEFT : Int := 263

/-- Key code `GLFW_KEY_DOWN` of `GLFW/glfw3.h`. -/
def GLFW_KEY_DOWN : Int := 264

/-- Key code `GLFW_KEY_UP` of `GLFW/glfw3.h`. -/
def GLFW_KEY_UP : Int := 265

/-- The arguments of one call of the `keyboard` callback (the window apart). -/
structure KeyEvent where
  key : Int
  scancode : Int
  action : Int
  mods : Int
deriving DecidableEq

/-- The globals that `keyboard` reads and writes; `pmov` is the same global as
`Game.pmov`. -/
structure KeyState where
  pmov : Int
  rectangle_rot_status : Bool
  triangle_rot_status : Bool
deriving DecidableEq

/-- Function `keyboard`: the two `switch` statements, as chains of tests on the
(pairwise distinct) case labels.  The result is `none` when the callback calls
`quit(window)`, which exits the process. -/
def keyboard (e : KeyEvent) (s : KeyState) : Option KeyState :=
  if e.action = GLFW_RELEASE then
    if e.key = GLFW_KEY_C then
      some { s with rectangle_rot_status := !s.rectangle_rot_status }
    else if e.key = GLFW_KEY_P then
      some { s with triangle_rot_status := !s.triangle_rot_status }
    else if e.key = GLFW_KEY_X then
      some s
    else
      some s
  else if e.action = GLFW_PRESS then
    if e.key = GLFW_KEY_ESCAPE then
      none
    else if e.key = GLFW_KEY_UP then
      some { s with pmov := 1 }
    else if e.key = GLFW_KEY_DOWN then
      some { s with pmov := 4 }
    else if e.key = GLFW_KEY_LEFT then
      some { s with pmov := 2 }
    else if e.key = GLFW_KEY_RIGHT then
      some { s with pmov := 3 }
    else
      some s
  else
    some s

/-- The key events that one `glfwPollEvents` delivers, in order; a call that
exits the process ends the run. -/
def pollKeys : List KeyEvent → KeyState → Option KeyState
  | [], s => some s
  | e :: rest, s =>
    match keyboard e s with
    | none => none
    | some s1 => pollKeys rest s1

/-- The event is a press of the escape key. -/
def isEscapePress (e : KeyEvent) : Prop :=
  e.action = GLFW_PRESS ∧ e.key = GLFW_KEY_ESCAPE

instance (e : KeyEvent) : Decidable (isEscapePress e) := by
  unfold isEscapePress; infer_instance

/-- The direction that the specification attaches to an arrow-key press event
(Up = 1, Left = 2, Right = 3, Down = 4); `none` for every other event. -/
def spec_arrowPress (e : KeyEvent) : Option Int :=
  if e.action = GLFW_PRESS then
    if e.key = GLFW_KEY_UP then some 1
    else if e.key = GLFW_KEY_LEFT then some 2
    else if e.key = GLFW_KEY_RIGHT then some 3
    else if e.key = GLFW_KEY_DOWN then some 4
    else none
  else none

/-- The specification of the pending move after a sequence of key events: the
direction of the last arrow-key press in it, or the previous pending move when it
has none. -/
def spec_pendingMove (prev : Int) (evs : List KeyEvent) : Int :=
  ((evs.filterMap spec_arrowPress).getLast?).getD prev

/-! ## Drawing a tile, and the invariant of the player position -/

/-- The translation of line 750 of `draw_block`,
`glm::vec3(2*(block->x),0,2*(block->z))`: the world position at which the tile is
drawn (`int` arithmetic, then conversion to `float`). -/
def draw_block_translate (b : block) : ℚ × ℚ × ℚ :=
  (((2 * b.x : Int) : ℚ), 0, ((2 * b.z : Int) : ℚ))

/-- The invariant of the player position that every frame keeps: `x = 2a` with
`-1 ≤ a ≤ 15`, `z = 2b` with `-1 ≤ b ≤ 10`, and `y = k/2` with `-3 ≤ k ≤ 4`. -/
def reachableInv (g : Game) : Prop :=
  (∃ a : ℤ, g.player_pos0 = 2 * (a : ℚ) ∧ -1 ≤ a ∧ a ≤ 15) ∧
  (∃ b : ℤ, g.player_pos2 = 2 * (b : ℚ) ∧ -1 ≤ b ∧ b ≤ 10) ∧
  (∃ k : ℤ, g.player_pos1 = (k : ℚ) / 2 ∧ -3 ≤ k ∧ k ≤ 4)

/-! ## Basic facts about one frame -/

theorem drowning_iff (g : Game) :
    drowning g ↔
      outOfBounds g.player_pos0 g.player_pos2 ∨
        (overWater g.player_pos0 ∧ g.player_pos2 ≠ g.boatz) := by
  unfold drowning outOfBounds overWater
  tauto

theorem draw_player_dead (g : Game) (h : g.player_pos1 < -1) :
    draw_player g = (Outcome.gameOver, g) := by
  simp [draw_player, h]

theorem draw_player_drowning (g : Game) (h : g.player_pos1 ≥ -1) (hd : drowning g) :
    draw_player g = (Outcome.drawn, { g with player_pos1 := g.player_pos1 - 1 / 2 }) := by
  simp [draw_player, not_lt.mpr h, hd]

theorem draw_player_safe (g : Game) (h : g.player_pos1 ≥ -1) (hd : ¬ drowning g) :
    draw_player g = (Outcome.drawn, applyMove g) := by
  simp [draw_player, not_lt.mpr h, hd]

theorem applyMove_player_pos1 (g : Game) : (applyMove g).player_pos1 = g.player_pos1 := by
  by_cases h3 : g.pmov = 3 <;> by_cases h2 : g.pmov = 2 <;> by_cases h4 : g.pmov = 4 <;>
    by_cases h1 : g.pmov = 1 <;> simp [applyMove, h3, h2, h4, h1]

theorem applyMove_cases (g : Game) :
    (applyMove g).player_pos1 = g.player_pos1 ∧
    (((applyMove g).player_pos0 = g.player_pos0 ∧ (applyMove g).player_pos2 = g.player_pos2) ∨
     ((applyMove g).player_pos0 = g.player_pos0 + 2 ∧
        (applyMove g).player_pos2 = g.player_pos2) ∨
     ((applyMove g).player_pos0 = g.player_pos0 - 2 ∧
        (applyMove g).player_pos2 = g.player_pos2) ∨
     ((applyMove g).player_pos0 = g.player_pos0 ∧
        (applyMove g).player_pos2 = g.player_pos2 + 2) ∨
     ((applyMove g).player_pos0 = g.player_pos0 ∧
        (applyMove g).player_pos2 = g.player_pos2 - 2)) := by
  refine ⟨applyMove_player_pos1 g, ?_⟩
  by_cases h3 : g.pmov = 3 <;> by_cases h2 : g.pmov = 2 <;> by_cases h4 : g.pmov = 4 <;>
    by_cases h1 : g.pmov = 1 <;> simp_all [applyMove]

theorem exactF32_move (v : ℚ) (h : exactF32 v) (h0 : 0 ≤ v) (h1 : v < 30) :
    exactF32 (v + 2) ∧ exactF32 (v - 2) := by
  obtain ⟨n, hn, _, _⟩ := h
  have hq0 : (0 : ℚ) ≤ (n : ℚ) := by rw [hn] at h0; linarith
  have hq1 : (n : ℚ) < 60 := by rw [hn] at h1; linarith
  have hn0 : (0 : ℤ) ≤ n := by exact_mod_cast hq0
  have hn1 : n < 60 := by exact_mod_cast hq1
  constructor
  · refine ⟨n + 4, ?_, by omega, by omega⟩
    rw [hn]
    push_cast
    ring
  · refine ⟨n - 4, ?_, by omega, by omega⟩
    rw [hn]
    push_cast
    ring

theorem exactF32_sub_half (v : ℚ) (h : exactF32 v) (h0 : v ≥ -1) : exactF32 (v - 1 / 2) := by
  obtain ⟨n, hn, _, hn2⟩ := h
  have hq0 : (-2 : ℚ) ≤ (n : ℚ) := by rw [hn] at h0; linarith
  have hn0 : (-2 : ℤ) ≤ n := by exact_mod_cast hq0
  refine ⟨n - 1, ?_, by omega, by omega⟩
  rw [hn]
  push_cast
  ring

theorem draw_player_exactF32 (g : Game) (h : exactF32 g.player_pos1) :
    exactF32 (draw_player g).2.player_pos1 := by
  by_cases hy : g.player_pos1 < -1
  · rw [draw_player_dead g hy]
    exact h
  · have hy1 : g.player_pos1 ≥ -1 := not_lt.mp hy
    by_cases hd : drowning g
    · rw [draw_player_drowning g hy1 hd]
      exact exactF32_sub_half _ h hy1
    · rw [draw_player_safe g hy1 hd, applyMove_player_pos1]
      exact h

theorem runFrames_exactF32 (fs : List FrameInput) :
    ∀ g : Game, exactF32 g.player_pos1 → exactF32 (runFrames g fs).2.player_pos1 := by
  induction fs with
  | nil =>
    intro g h
    exact h
  | cons i rest ih =>
    intro g h
    have h1 : exactF32 (frame g i).2.player_pos1 :=
      draw_player_exactF32 { g with pmov := i.pmov, boatx := i.boatx, boatz := i.boatz } h
    cases hf : frame g i with
    | mk o g1 =>
      rw [hf] at h1
      cases o with
      | gameOver =>
        simp only [runFrames, hf]
        exact h1
      | drawn =>
        simp only [runFrames, hf]
        exact ih g1 h1

theorem glfwGetTimeInt_range (t : ℚ) (ht : 0 ≤ t) (ht1 : t < 2 ^ 31) :
    0 ≤ glfwGetTimeInt t ∧ glfwGetTimeInt t < 2 ^ 31 := by
  have e : glfwGetTimeInt t = ⌊t⌋ := by simp [glfwGetTimeInt, ht]
  rw [e]
  constructor
  · exact Int.floor_nonneg.mpr ht
  · rw [Int.floor_lt]
    exact_mod_cast ht1

theorem drowningFrame_iff (g : Game) :
    drowningFrame g ↔ g.player_pos1 ≥ -1 ∧ drowning g := by
  unfold drowningFrame
  constructor
  · intro h
    by_cases h1 : g.player_pos1 < -1
    · rw [draw_player_dead g h1] at h
      simp at h
    · have h1 : g.player_pos1 ≥ -1 := not_lt.mp h1
      refine ⟨h1, ?_⟩
      by_contra hd
      rw [draw_player_safe g h1 hd] at h
      have h2 := congrArg (fun r => r.2.player_pos1) h
      simp only [applyMove_player_pos1] at h2
      linarith
  · rintro ⟨h1, hd⟩
    exact draw_player_drowning g h1 hd

theorem frame_player_pos (g : Game) (i : FrameInput) (h : g.player_pos1 ≥ -1)
    (hd : drowning { g with pmov := i.pmov, boatx := i.boatx, boatz := i.boatz }) :
    frame g i =
      (Outcome.drawn,
        { g with player_pos1 := g.player_pos1 - 1 / 2, pmov := i.pmov, boatx := i.boatx,
                 boatz := i.boatz }) := by
  exact draw_player_drowning
    { g with pmov := i.pmov, boatx := i.boatx, boatz := i.boatz } h hd

theorem frame_dead (g : Game) (i : FrameInput) (h : g.player_pos1 < -1) :
    frame g i =
      (Outcome.gameOver, { g with pmov := i.pmov, boatx := i.boatx, boatz := i.boatz }) := by
  exact draw_player_dead
    { g with pmov := i.pmov, boatx := i.boatx, boatz := i.boatz } h

set_option maxRecDepth 1000000 in
/-- The tile that the grid loop of `initGL` stores for column `c`, row `r`, at
index `c*10 + r` of `barr`. -/
theorem initGL_getElem :
    ∀ c : Fin 15, ∀ r : Fin 10,
      initGL[c.val * 10 + r.val]? =
        some { type := if c.val = 6 ∨ c.val = 7 then 1 else 0, y := 0, x := (c.val : Int),
               z := (r.val : Int) } := by
  decide

/-- A run of frames in which every frame meets the drowning condition at the
player's position: the position never changes, a run that is still alive has lost
`0.5` of height per frame, and a run that ended did so below `-1`. -/
theorem runFrames_drowning (fs : List FrameInput) :
    ∀ g : Game,
      (∀ i ∈ fs, drowning { g with pmov := i.pmov, boatx := i.boatx, boatz := i.boatz }) →
      (runFrames g fs).2.player_pos0 = g.player_pos0 ∧
      (runFrames g fs).2.player_pos2 = g.player_pos2 ∧
      ((runFrames g fs).1 = Outcome.drawn →
        (runFrames g fs).2.player_pos1 = g.player_pos1 - (fs.length : ℚ) / 2) ∧
      ((runFrames g fs).1 = Outcome.gameOver → (runFrames g fs).2.player_pos1 < -1) := by
  induction fs with
  | nil =>
    intro g _
    simp [runFrames]
  | cons i rest ih =>
    intro g h
    by_cases hy : g.player_pos1 < -1
    · simp [runFrames, frame_dead g i hy, hy]
    · have hy1 : g.player_pos1 ≥ -1 := not_lt.mp hy
      have hd := h i (List.mem_cons_self i rest)
      have hrest : ∀ j ∈ rest,
          drowning
            { ({ g with player_pos1 := g.player_pos1 - 1 / 2, pmov := i.pmov, boatx := i.boatx,
                        boatz := i.boatz } : Game) with
              pmov := j.pmov, boatx := j.boatx, boatz := j.boatz } := by
        intro j hj
        have := h j (List.mem_cons_of_mem i hj)
        simpa [drowning] using this
      obtain ⟨h0, h2, h1, h3⟩ := ih _ hrest
      simp only [runFrames, frame_player_pos g i hy1 hd]
      refine ⟨h0, h2, ?_, h3⟩
      intro hdr
      rw [h1 hdr]
      simp only [List.length_cons]
      push_cast
      ring

theorem glfwGetTimeInt_of_nonneg (t : ℚ) (ht : 0 ≤ t) : glfwGetTimeInt t = ⌊t⌋ := by
  simp [glfwGetTimeInt, ht]

theorem glfwGetTimeInt_tmod (t : ℚ) (ht : 0 ≤ t) :
    (glfwGetTimeInt t).tmod 10 = ⌊t⌋ % 10 := by
  rw [glfwGetTimeInt_of_nonneg t ht]
  exact Int.tmod_eq_emod (Int.floor_nonneg.mpr ht) (by norm_num)

theorem runFrames_cons_safe (g : Game) (i : FrameInput) (rest : List FrameInput)
    (h : g.player_pos1 ≥ -1)
    (hd : ¬ drowning { g with pmov := i.pmov, boatx := i.boatx, boatz := i.boatz }) :
    runFrames g (i :: rest) =
      runFrames (applyMove { g with pmov := i.pmov, boatx := i.boatx, boatz := i.boatz }) rest := by
  have e : frame g i =
      (Outcome.drawn, applyMove { g with pmov := i.pmov, boatx := i.boatx, boatz := i.boatz }) :=
    draw_player_safe { g with pmov := i.pmov, boatx := i.boatx, boatz := i.boatz } h hd
  simp only [runFrames, e]

set_option maxRecDepth 1000000 in
/-- Exactly one entry of the tile list built by `initGL` has the grid
coordinates `(c, r)`. -/
theorem initGL_filter_length :
    ∀ c : Fin 15, ∀ r : Fin 10,
      (initGL.filter (fun b => b.x = (c.val : Int) ∧ b.z = (r.val : Int))).length = 1 := by
  decide

/-! ## Claims -/

/-- C1: in an alive state that does not satisfy the drowning condition, and whose
`x` and `z` are values on which the binary32 additions are exact (`exactF32`), one
frame of `draw_player` applies the pending move as Up (1) `z -= 2`, Down (4)
`z += 2`, Left (2) `x -= 2`, Right (3) `x += 2`, None (0) no change, with the
height and the other horizontal coordinate unchanged, and the new `x` and `z` are
again such values; from the position `(2,2,2)` set by `create_player` a pending
Right gives `(4,2,2)` for every boat position. -/
theorem draw_player_applies_move (g : Game) (halive : g.player_pos1 ≥ -1)
    (hsafe : ¬ drowning g) (hx : exactF32 g.player_pos0) (hz : exactF32 g.player_pos2) :
    (draw_player g).1 = Outcome.drawn ∧
    exactF32 (draw_player g).2.player_pos0 ∧
    exactF32 (draw_player g).2.player_pos2 ∧
    (g.pmov = 1 → (draw_player g).2 = { g with player_pos2 := g.player_pos2 - 2, pmov := 0 }) ∧
    (g.pmov = 4 → (draw_player g).2 = { g with player_pos2 := g.player_pos2 + 2, pmov := 0 }) ∧
    (g.pmov = 2 → (draw_player g).2 = { g with player_pos0 := g.player_pos0 - 2, pmov := 0 }) ∧
    (g.pmov = 3 → (draw_player g).2 = { g with player_pos0 := g.player_pos0 + 2, pmov := 0 }) ∧
    (g.pmov = 0 → (draw_player g).2 = g) ∧
    (∀ g0 : Game, g0.pmov = 3 →
      draw_player (create_player g0) =
        (Outcome.drawn, { create_player g0 with player_pos0 := 4, pmov := 0 }) ∧
      (draw_player (create_player g0)).2.player_pos0 = 4 ∧
      (draw_player (create_player g0)).2.player_pos1 = 2 ∧
      (draw_player (create_player g0)).2.player_pos2 = 2) := by
  have h1 : ¬ g.player_pos1 < -1 := not_lt.mpr halive
  have hb : 0 ≤ g.player_pos0 ∧ g.player_pos0 < 30 ∧ 0 ≤ g.player_pos2 ∧
      g.player_pos2 < 20 := by
    unfold drowning at hsafe
    push_neg at hsafe
    exact ⟨hsafe.1, hsafe.2.1, hsafe.2.2.2.1, hsafe.2.2.1⟩
  have hmx := exactF32_move g.player_pos0 hx hb.1 hb.2.1
  have hmz := exactF32_move g.player_pos2 hz hb.2.2.1 (by linarith [hb.2.2.2])
  refine ⟨?_, ?_, ?_, ?_, ?_, ?_, ?_, ?_, ?_⟩
  · simp [draw_player, h1, hsafe]
  · rw [draw_player_safe g halive hsafe]
    rcases (applyMove_cases g).2 with ⟨e, _⟩ | ⟨e, _⟩ | ⟨e, _⟩ | ⟨e, _⟩ | ⟨e, _⟩ <;>
      simp only [e]
    · exact hx
    · exact hmx.1
    · exact hmx.2
    · exact hx
    · exact hx
  · rw [draw_player_safe g halive hsafe]
    rcases (applyMove_cases g).2 with ⟨_, e⟩ | ⟨_, e⟩ | ⟨_, e⟩ | ⟨_, e⟩ | ⟨_, e⟩ <;>
      simp only [e]
    · exact hz
    · exact hz
    · exact hz
    · exact hmz.1
    · exact hmz.2
  · intro h; simp [draw_player, h1, hsafe, applyMove, h]
  · intro h; simp [draw_player, h1, hsafe, applyMove, h]
  · intro h; simp [draw_player, h1, hsafe, applyMove, h]
  · intro h; simp [draw_player, h1, hsafe, applyMove, h]
  · intro h
    simp [draw_player, h1, hsafe, applyMove, h]
    cases g; simp_all
  · intro g0 h
    have hs : ¬ drowning (create_player g0) := by
      norm_num [drowning, create_player]
    have h2 : ¬ (create_player g0).player_pos1 < -1 := by norm_num [create_player]
    have h3 : (create_player g0).pmov = 3 := h
    have e : draw_player (create_player g0) =
        (Outcome.drawn, { create_player g0 with player_pos0 := 4, pmov := 0 }) := by
      simp only [draw_player, h2, hs, if_false, applyMove, h3]
      norm_num [create_player]
    rw [e]
    exact ⟨rfl, rfl, rfl, rfl⟩

/-- Witness for C1: the first frame after start-up with Right pending moves the
player from `(2,2,2)` to `(4,2,2)`. -/
theorem draw_player_applies_move_witness :
    (draw_player { initialGame with pmov := 3 }).2 =
      { initialGame with player_pos0 := 4, pmov := 0 } := by
  have h := (draw_player_applies_move { initialGame with pmov := 3 }
    (by norm_num [initialGame, create_player])
    (by norm_num [drowning, initialGame, create_player])
    ⟨4, by norm_num [initialGame, create_player], by norm_num, by norm_num⟩
    ⟨4, by norm_num [initialGame, create_player], by norm_num, by norm_num⟩).2.2.2.2.2.2.1 rfl
  rw [h]
  norm_num [initialGame, create_player]

/-- C2: in an alive state whose position is out of bounds (`x < 0`, `x ≥ 30`,
`z < 0` or `z ≥ 20`) and whose height is a value on which the binary32
subtraction is exact (`exactF32`), one frame of `draw_player` lowers the height by
exactly `0.5` and leaves `x` and `z` (and every other global) unchanged, whatever
the pending move and the boat position are; the new height is again such a
value. -/
theorem draw_player_out_of_bounds (g : Game) (halive : g.player_pos1 ≥ -1)
    (hoob : g.player_pos0 < 0 ∨ g.player_pos0 ≥ 30 ∨ g.player_pos2 < 0 ∨ g.player_pos2 ≥ 20)
    (hy : exactF32 g.player_pos1) :
    draw_player g = (Outcome.drawn, { g with player_pos1 := g.player_pos1 - 1 / 2 }) ∧
    (draw_player g).2.player_pos1 = g.player_pos1 - 1 / 2 ∧
    (draw_player g).2.player_pos0 = g.player_pos0 ∧
    (draw_player g).2.player_pos2 = g.player_pos2 ∧
    exactF32 (draw_player g).2.player_pos1 := by
  have hd : drowning g := by
    unfold drowning
    tauto
  refine ⟨?_, ?_, ?_, ?_, draw_player_exactF32 g hy⟩ <;>
    rw [draw_player_drowning g halive hd]

/-- Witness for C2: one step left of the board, with Right pending and the boat
at `(12,4)`. -/
theorem draw_player_out_of_bounds_witness :
    (draw_player
      { player_pos0 := -2, player_pos1 := 2, player_pos2 := 2, pmov := 3,
        boatx := 12, boatz := 4 }).2.player_pos1 = 3 / 2 := by
  have h := (draw_player_out_of_bounds
    { player_pos0 := -2, player_pos1 := 2, player_pos2 := 2, pmov := 3,
      boatx := 12, boatz := 4 } (by norm_num) (by norm_num)
    ⟨4, by norm_num, by norm_num, by norm_num⟩).2.1
  rw [h]
  norm_num

/-- C3 (the code at the failing input): the tile that `initGL` builds for column 7,
row 0 is a water tile, yet the over-water test of the drowning condition is false
at its world position `(14, 0)`, and no boat position makes a player standing
there drown. -/
theorem overWater_false_on_column7 :
    initGL[7 * 10 + 0]? = some { type := 1, y := 0, x := 7, z := 0 } ∧
    ¬ overWater (2 * 7) ∧
    ∀ bx bz : ℚ,
      ¬ drowning { player_pos0 := 2 * 7, player_pos1 := 2, player_pos2 := 2 * 0, pmov := 0,
                   boatx := bx, boatz := bz } := by
  refine ⟨initGL_getElem 7 0, ?_, ?_⟩
  · norm_num [overWater]
  · intro bx bz
    norm_num [drowning]

/-- The over-water test on the grid: at the world position of column `c` it holds
exactly for column 6, while `initGL` makes the tiles of columns 6 and 7 water. -/
theorem overWater_grid (c : Fin 15) (r : Fin 10) :
    (overWater (2 * (c.val : ℚ)) ↔ c.val = 6) ∧
    ((initGL[c.val * 10 + r.val]?).map block.type = some 1 ↔ c.val = 6 ∨ c.val = 7) := by
  constructor
  · unfold overWater
    constructor
    · rintro ⟨h1, h2⟩
      have h3 : (6 : ℚ) ≤ c.val := by linarith
      have h4 : (c.val : ℚ) < 7 := by linarith
      have h5 : 6 ≤ c.val := by exact_mod_cast h3
      have h6 : c.val < 7 := by exact_mod_cast h4
      omega
    · intro h
      rw [h]
      norm_num
  · rw [initGL_getElem c r]
    by_cases h : c.val = 6 ∨ c.val = 7 <;> simp [h]

/-- C4 (counterexample): the player stands alive on the water column at `(12, 4)`
and the boat is at `(0, 4)`, so the two positions differ; the frame does not take
the drowning branch although the claim's condition holds. -/
theorem drowning_boatx_counterexample :
    ((2 : ℚ) ≥ -1) ∧
    ¬ (drowningFrame { player_pos0 := 12, player_pos1 := 2, player_pos2 := 4, pmov := 0,
                       boatx := 0, boatz := 4 } ↔
        (outOfBounds 12 4 ∨ (overWater 12 ∧ ((12 : ℚ), (4 : ℚ)) ≠ ((0 : ℚ), (4 : ℚ))))) := by
  refine ⟨by norm_num, ?_⟩
  rw [drowningFrame_iff]
  norm_num [drowning, overWater, outOfBounds]

/-- C4 (amended): in an alive state a frame of `draw_player` takes the drowning
branch if and only if the player is out of bounds, or is over water
(`12 ≤ x < 14`) and its `z` differs from `boatz`; `boatx` is not consulted.  When
`boatx` equals the player's `x` this is the same as the player's `(x,z)` differing
from `(boatx, boatz)`. -/
theorem drowningFrame_iff_boatz (g : Game) (halive : g.player_pos1 ≥ -1) :
    (drowningFrame g ↔
      (outOfBounds g.player_pos0 g.player_pos2 ∨
        (overWater g.player_pos0 ∧ g.player_pos2 ≠ g.boatz))) ∧
    (g.boatx = g.player_pos0 →
      (drowningFrame g ↔
        (outOfBounds g.player_pos0 g.player_pos2 ∨
          (overWater g.player_pos0 ∧
            (g.player_pos0, g.player_pos2) ≠ (g.boatx, g.boatz))))) := by
  have h1 : drowningFrame g ↔
      (outOfBounds g.player_pos0 g.player_pos2 ∨
        (overWater g.player_pos0 ∧ g.player_pos2 ≠ g.boatz)) := by
    rw [drowningFrame_iff, drowning_iff]
    tauto
  refine ⟨h1, ?_⟩
  intro hx
  rw [h1]
  have h2 : (g.player_pos0, g.player_pos2) ≠ (g.boatx, g.boatz) ↔ g.player_pos2 ≠ g.boatz := by
    rw [Ne, Prod.mk.injEq, hx]
    simp
  rw [h2]

/-- Witness for C4: on the water column with the boat two rows away the frame is a
drowning frame. -/
theorem drowningFrame_iff_boatz_witness :
    drowningFrame { player_pos0 := 12, player_pos1 := 2, player_pos2 := 4, pmov := 0,
                    boatx := 12, boatz := 8 } :=
  (drowningFrame_iff_boatz
    { player_pos0 := 12, player_pos1 := 2, player_pos2 := 4, pmov := 0,
      boatx := 12, boatz := 8 } (by norm_num)).1.mpr
    (Or.inr (by norm_num [overWater]))

/-- C5 (counterexample): the player stands at `(12, 2, 4)` with Right pending.  In
the first frame the boat is at row 2, so the frame is a drowning frame and the
height drops to `1.5`; in the second frame the boat has reached row 4, and the
frame applies the move: `x` becomes 14 and the height stays `1.5`. -/
theorem drowning_stops_counterexample :
    drowningFrame { player_pos0 := 12, player_pos1 := 2, player_pos2 := 4, pmov := 3,
                    boatx := 12, boatz := 2 } ∧
    runFrames
        { player_pos0 := 12, player_pos1 := 2, player_pos2 := 4, pmov := 3,
          boatx := 12, boatz := 2 }
        [⟨3, 12, 2⟩] =
      (Outcome.drawn,
        { player_pos0 := 12, player_pos1 := 3 / 2, player_pos2 := 4, pmov := 3,
          boatx := 12, boatz := 2 }) ∧
    runFrames
        { player_pos0 := 12, player_pos1 := 2, player_pos2 := 4, pmov := 3,
          boatx := 12, boatz := 2 }
        [⟨3, 12, 2⟩, ⟨3, 12, 4⟩] =
      (Outcome.drawn,
        { player_pos0 := 14, player_pos1 := 3 / 2, player_pos2 := 4, pmov := 0,
          boatx := 12, boatz := 4 }) := by
  refine ⟨?_, ?_, ?_⟩
  · rw [drowningFrame_iff]
    norm_num [drowning]
  · norm_num [runFrames, frame, draw_player, drowning]
  · norm_num [runFrames, frame, draw_player, drowning, applyMove]

/-- C5 (amended): let the height be a value on which the binary32 subtraction is
exact (`exactF32`).  In a run of later frames that starts with the player out of
bounds, or with the player over water (`12 ≤ x < 14`) and in which every frame has
`boatz` different from the player's `z`, every frame before death lowers the
height by exactly `0.5` and changes neither `x` nor `z`, for every sequence of
pending moves and boat positions, and the height stays a value of that kind.
There is no drowning flag: an alive in-bounds frame whose `boatz` equals the
player's `z` is not a drowning frame, whatever happened before. -/
theorem drowning_persists (g : Game) (fs : List FrameInput)
    (hy : exactF32 g.player_pos1)
    (h : outOfBounds g.player_pos0 g.player_pos2 ∨
      (overWater g.player_pos0 ∧ ∀ i ∈ fs, g.player_pos2 ≠ i.boatz)) :
    (runFrames g fs).2.player_pos0 = g.player_pos0 ∧
    (runFrames g fs).2.player_pos2 = g.player_pos2 ∧
    ((runFrames g fs).1 = Outcome.drawn →
      (runFrames g fs).2.player_pos1 = g.player_pos1 - (fs.length : ℚ) / 2) ∧
    ((runFrames g fs).1 = Outcome.gameOver → (runFrames g fs).2.player_pos1 < -1) ∧
    exactF32 (runFrames g fs).2.player_pos1 ∧
    (∀ g1 : Game, g1.player_pos1 ≥ -1 → ¬ outOfBounds g1.player_pos0 g1.player_pos2 →
      g1.player_pos2 = g1.boatz → ¬ drowningFrame g1) := by
  have hrun := runFrames_drowning fs g (by
    intro i hi
    rw [drowning_iff]
    rcases h with h | ⟨hw, hb⟩
    · exact Or.inl h
    · exact Or.inr ⟨hw, hb i hi⟩)
  refine ⟨hrun.1, hrun.2.1, hrun.2.2.1, hrun.2.2.2, runFrames_exactF32 fs g hy, ?_⟩
  intro g1 _ hin hz hdf
  rw [drowningFrame_iff, drowning_iff] at hdf
  rcases hdf.2 with ho | ⟨_, hne⟩
  · exact hin ho
  · exact hne hz

/-- Witness for C5: one step above the board (`z = -2`), three frames with moves
pending and the boat passing by leave the player at `(2, -2)` with height `0.5`. -/
theorem drowning_persists_witness :
    (runFrames
        { player_pos0 := 2, player_pos1 := 2, player_pos2 := -2, pmov := 0,
          boatx := 12, boatz := 0 }
        [⟨4, 12, 0⟩, ⟨3, 12, 2⟩, ⟨4, 12, 4⟩]).2.player_pos2 = -2 :=
  (drowning_persists
    { player_pos0 := 2, player_pos1 := 2, player_pos2 := -2, pmov := 0,
      boatx := 12, boatz := 0 }
    [⟨4, 12, 0⟩, ⟨3, 12, 2⟩, ⟨4, 12, 4⟩]
    ⟨4, by norm_num, by norm_num, by norm_num⟩
    (Or.inl (by norm_num [outOfBounds]))).2.1

/-- C6: when the height is below `-1`, `draw_player` reports the game over before
any mutation, leaving `x`, `y`, `z` and `pmov` as they were, so evaluating the
frame again on the resulting state reports the game over again with the same
state; when the height is at least `-1` (also exactly `-1`) the game over is not
reported. -/
theorem draw_player_gameOver_iff (g : Game) :
    (g.player_pos1 < -1 →
      draw_player g = (Outcome.gameOver, g) ∧
      draw_player (draw_player g).2 = (Outcome.gameOver, g)) ∧
    (g.player_pos1 ≥ -1 → (draw_player g).1 = Outcome.drawn) := by
  constructor
  · intro h
    rw [draw_player_dead g h]
    exact ⟨rfl, draw_player_dead g h⟩
  · intro h
    by_cases hd : drowning g
    · rw [draw_player_drowning g h hd]
    · rw [draw_player_safe g h hd]

/-- Witness for C6: at height `-1.5` the game is over and the state is kept; at
height exactly `-1` the frame is drawn. -/
theorem draw_player_gameOver_iff_witness :
    draw_player { player_pos0 := -2, player_pos1 := -3 / 2, player_pos2 := 2, pmov := 3,
                  boatx := 12, boatz := 0 } =
      (Outcome.gameOver,
        { player_pos0 := -2, player_pos1 := -3 / 2, player_pos2 := 2, pmov := 3,
          boatx := 12, boatz := 0 }) ∧
    (draw_player { player_pos0 := -2, player_pos1 := -1, player_pos2 := 2, pmov := 3,
                   boatx := 12, boatz := 0 }).1 = Outcome.drawn :=
  ⟨((draw_player_gameOver_iff
      { player_pos0 := -2, player_pos1 := -3 / 2, player_pos2 := 2, pmov := 3,
        boatx := 12, boatz := 0 }).1 (by norm_num)).1,
   (draw_player_gameOver_iff
      { player_pos0 := -2, player_pos1 := -1, player_pos2 := 2, pmov := 3,
        boatx := 12, boatz := 0 }).2 (by norm_num)⟩

/-- C7 (counterexample): from the safe in-bounds position `(2, 2, 0)` on the top
row, Up leaves the board (`z = -2`); the next three frames are drowning frames, so
Down, Left and Right are not applied and the run ends at `z = -2`, height `0.5`. -/
theorem round_trip_counterexample :
    ¬ drowning { player_pos0 := 2, player_pos1 := 2, player_pos2 := 0, pmov := 1,
                 boatx := 12, boatz := 0 } ∧
    ¬ outOfBounds 2 0 ∧
    runFrames
        { player_pos0 := 2, player_pos1 := 2, player_pos2 := 0, pmov := 0,
          boatx := 12, boatz := 0 }
        [⟨1, 12, 0⟩, ⟨4, 12, 0⟩, ⟨2, 12, 0⟩, ⟨3, 12, 0⟩] =
      (Outcome.drawn,
        { player_pos0 := 2, player_pos1 := 1 / 2, player_pos2 := -2, pmov := 3,
          boatx := 12, boatz := 0 }) := by
  refine ⟨?_, ?_, ?_⟩
  · norm_num [drowning]
  · norm_num [outOfBounds]
  · norm_num [runFrames, frame, draw_player, drowning, applyMove]

/-- C7 (amended): from an alive position, four consecutive frames with pending
moves Up, Down, Left, Right return the player to the original `(x,z)` (with the
height unchanged) provided none of the four frames meets the drowning condition:
not at `(x,z)` in the first and third frame, not at `(x,z-2)` in the second, not
at `(x-2,z)` in the fourth, each under that frame's boat position. -/
theorem four_moves_round_trip (g : Game) (b1 b2 b3 b4 : ℚ × ℚ)
    (halive : g.player_pos1 ≥ -1)
    (h1 : ¬ drowning { g with boatx := b1.1, boatz := b1.2 })
    (h2 : ¬ drowning { g with player_pos2 := g.player_pos2 - 2, boatx := b2.1, boatz := b2.2 })
    (h3 : ¬ drowning { g with boatx := b3.1, boatz := b3.2 })
    (h4 : ¬ drowning { g with player_pos0 := g.player_pos0 - 2, boatx := b4.1, boatz := b4.2 }) :
    runFrames g [⟨1, b1.1, b1.2⟩, ⟨4, b2.1, b2.2⟩, ⟨2, b3.1, b3.2⟩, ⟨3, b4.1, b4.2⟩] =
      (Outcome.drawn, { g with pmov := 0, boatx := b4.1, boatz := b4.2 }) := by
  have hd1 : ¬ drowning { g with pmov := 1, boatx := b1.1, boatz := b1.2 } := h1
  have e1 : applyMove { g with pmov := 1, boatx := b1.1, boatz := b1.2 } =
      { g with player_pos2 := g.player_pos2 - 2, pmov := 0, boatx := b1.1, boatz := b1.2 } := by
    simp [applyMove]
  have hd2 : ¬ drowning
      { g with player_pos2 := g.player_pos2 - 2, pmov := 4, boatx := b2.1, boatz := b2.2 } := h2
  have e2 : applyMove
      { g with player_pos2 := g.player_pos2 - 2, pmov := 4, boatx := b2.1, boatz := b2.2 } =
      { g with pmov := 0, boatx := b2.1, boatz := b2.2 } := by
    simp [applyMove]
  have hd3 : ¬ drowning { g with pmov := 2, boatx := b3.1, boatz := b3.2 } := h3
  have e3 : applyMove { g with pmov := 2, boatx := b3.1, boatz := b3.2 } =
      { g with player_pos0 := g.player_pos0 - 2, pmov := 0, boatx := b3.1, boatz := b3.2 } := by
    simp [applyMove]
  have hd4 : ¬ drowning
      { g with player_pos0 := g.player_pos0 - 2, pmov := 3, boatx := b4.1, boatz := b4.2 } := h4
  have e4 : applyMove
      { g with player_pos0 := g.player_pos0 - 2, pmov := 3, boatx := b4.1, boatz := b4.2 } =
      { g with pmov := 0, boatx := b4.1, boatz := b4.2 } := by
    simp [applyMove]
  rw [runFrames_cons_safe g ⟨1, b1.1, b1.2⟩ _ halive hd1, e1,
    runFrames_cons_safe
      { g with player_pos2 := g.player_pos2 - 2, pmov := 0, boatx := b1.1, boatz := b1.2 }
      ⟨4, b2.1, b2.2⟩ _ halive hd2, e2,
    runFrames_cons_safe { g with pmov := 0, boatx := b2.1, boatz := b2.2 }
      ⟨2, b3.1, b3.2⟩ _ halive hd3, e3,
    runFrames_cons_safe
      { g with player_pos0 := g.player_pos0 - 2, pmov := 0, boatx := b3.1, boatz := b3.2 }
      ⟨3, b4.1, b4.2⟩ _ halive hd4, e4]
  rfl

/-- Witness for C7: from `(4, 2, 4)` with the boat at `(12, 0)` the four moves
come back to `(4, 4)`. -/
theorem four_moves_round_trip_witness :
    runFrames
        { player_pos0 := 4, player_pos1 := 2, player_pos2 := 4, pmov := 0,
          boatx := 12, boatz := 0 }
        [⟨1, 12, 0⟩, ⟨4, 12, 0⟩, ⟨2, 12, 0⟩, ⟨3, 12, 0⟩] =
      (Outcome.drawn,
        { player_pos0 := 4, player_pos1 := 2, player_pos2 := 4, pmov := 0,
          boatx := 12, boatz := 0 }) :=
  four_moves_round_trip
    { player_pos0 := 4, player_pos1 := 2, player_pos2 := 4, pmov := 0,
      boatx := 12, boatz := 0 }
    (12, 0) (12, 0) (12, 0) (12, 0)
    (by norm_num) (by norm_num [drowning]) (by norm_num [drowning])
    (by norm_num [drowning]) (by norm_num [drowning])

/-- C8 (counterexample): alive and one step left of the board with Right pending,
the frame is a drowning frame and `pmov` is still 3 after it. -/
theorem pmov_kept_counterexample :
    ((2 : ℚ) ≥ -1) ∧
    (draw_player { player_pos0 := -2, player_pos1 := 2, player_pos2 := 2, pmov := 3,
                   boatx := 12, boatz := 0 }).1 = Outcome.drawn ∧
    (draw_player { player_pos0 := -2, player_pos1 := 2, player_pos2 := 2, pmov := 3,
                   boatx := 12, boatz := 0 }).2.pmov = 3 := by
  norm_num [draw_player, drowning]

/-- C8 (amended): after a non-terminal frame of `draw_player` that takes the safe
branch the pending move is None (`pmov = 0`); after a non-terminal frame that
takes the drowning branch `pmov` is what it was on entry (the move is not applied
and not cleared). -/
theorem draw_player_pmov (g : Game) (halive : g.player_pos1 ≥ -1) :
    (¬ drowning g → (draw_player g).2.pmov = 0) ∧
    (drowning g → (draw_player g).2.pmov = g.pmov) := by
  constructor
  · intro hd
    rw [draw_player_safe g halive hd]
    rfl
  · intro hd
    rw [draw_player_drowning g halive hd]

/-- Witness for C8: the first frame after start-up with Right pending clears
`pmov`. -/
theorem draw_player_pmov_witness :
    (draw_player { initialGame with pmov := 3 }).2.pmov = 0 :=
  (draw_player_pmov { initialGame with pmov := 3 }
    (by norm_num [initialGame, create_player])).1
    (by norm_num [drowning, initialGame, create_player])

/-- C9: for every clock reading `0 ≤ t < 2^31` (the readings that the conversion
to `int` holds: the converted value is in `[0, 2^31)`) and every prior boat state,
after `draw_boat` the boat row is `boatz = 2 * (⌊t⌋ mod 10)`, and when
`⌊t⌋ mod 10 = 0` the boat is at the channel start `(12, 0)`. -/
theorem draw_boat_boatz (t : ℚ) (ht : 0 ≤ t) (ht1 : t < 2 ^ 31) (g : Game) :
    (0 ≤ glfwGetTimeInt t ∧ glfwGetTimeInt t < 2 ^ 31) ∧
    (draw_boat t g).boatz = 2 * ((⌊t⌋ % 10 : ℤ) : ℚ) ∧
    (⌊t⌋ % 10 = 0 → (draw_boat t g).boatx = 12 ∧ (draw_boat t g).boatz = 0) := by
  have hm := glfwGetTimeInt_tmod t ht
  refine ⟨glfwGetTimeInt_range t ht ht1, ?_⟩
  by_cases h0 : ⌊t⌋ % 10 = 0
  · simp [draw_boat, hm, h0]
  · have e : draw_boat t g = { g with boatz := ((⌊t⌋ % 10 * 2 : Int) : ℚ) } := by
      simp only [draw_boat, hm, h0, if_false]
    rw [e]
    refine ⟨?_, fun h => absurd h h0⟩
    push_cast
    ring

/-- Witness for C9: at `t = 23.5` the boat row is `6`; at `t = 20.25` the boat is at
the channel start. -/
theorem draw_boat_boatz_witness :
    (draw_boat (47 / 2) initialGame).boatz = 2 * ((⌊(47 / 2 : ℚ)⌋ % 10 : ℤ) : ℚ) ∧
    (draw_boat (81 / 4) initialGame).boatx = 12 :=
  ⟨(draw_boat_boatz (47 / 2) (by norm_num) (by norm_num) initialGame).2.1,
   ((draw_boat_boatz (81 / 4) (by norm_num) (by norm_num) initialGame).2.2 (by norm_num)).1⟩

/-- C10 (the code at the failing input): at clock reading `1.5` the `else` branch
of `draw_boat` runs and leaves `boatx` as it was: from the zero-initialised
globals the boat is put at `(0, 2)`, from a prior `boatx = 12` at `(12, 2)`. -/
theorem draw_boat_keeps_boatx :
    (draw_boat (3 / 2) initialGame).boatx = 0 ∧
    (draw_boat (3 / 2) initialGame).boatz = 2 ∧
    (draw_boat (3 / 2) { initialGame with boatx := 12 }).boatx = 12 ∧
    (draw_boat (3 / 2) { initialGame with boatx := 12 }).boatz = 2 := by
  have h : (glfwGetTimeInt (3 / 2)).tmod 10 = 1 := by
    rw [glfwGetTimeInt_tmod _ (by norm_num)]
    norm_num
  simp only [draw_boat, h]
  norm_num [initialGame, create_player]

set_option maxRecDepth 1000000 in
/-- C11: after the grid loop of `initGL` the tile list holds exactly 150 tiles
(within the 400 slots of `barr`); for every column `c < 15` and row `r < 10` the
entry at index `c*10 + r` has `x = c`, `z = r`, `y = 0` and type 1 (water) for
columns 6 and 7, type 0 (ground) otherwise, and it is the only entry with these
coordinates; no two tiles share an `(x,z)` pair. -/
theorem initGL_grid :
    initGL.length = 150 ∧ initGL.length ≤ 400 ∧
    (∀ c : Fin 15, ∀ r : Fin 10,
      initGL[c.val * 10 + r.val]? =
        some { type := if c.val = 6 ∨ c.val = 7 then 1 else 0, y := 0, x := (c.val : Int),
               z := (r.val : Int) } ∧
      (initGL.filter (fun b => b.x = (c.val : Int) ∧ b.z = (r.val : Int))).length = 1) ∧
    (initGL.map (fun b => (b.x, b.z))).Nodup := by
  refine ⟨by decide, by decide, fun c r => ⟨initGL_getElem c r, initGL_filter_length c r⟩, ?_⟩
  decide

/-! ## Facts about the keyboard callback -/

theorem keyboard_eq_none_iff (e : KeyEvent) (s : KeyState) :
    keyboard e s = none ↔ isEscapePress e := by
  unfold keyboard isEscapePress
  split_ifs <;> simp_all [GLFW_RELEASE, GLFW_PRESS]

theorem keyboard_pmov (e : KeyEvent) (s s1 : KeyState) (h : keyboard e s = some s1) :
    s1.pmov = (spec_arrowPress e).getD s.pmov := by
  unfold keyboard at h
  unfold spec_arrowPress
  split_ifs at h ⊢ <;>
    simp_all [GLFW_RELEASE, GLFW_PRESS, GLFW_KEY_ESCAPE, GLFW_KEY_UP, GLFW_KEY_DOWN,
      GLFW_KEY_LEFT, GLFW_KEY_RIGHT] <;>
    (subst h; rfl)

theorem spec_pendingMove_cons (prev : Int) (e : KeyEvent) (rest : List KeyEvent) :
    spec_pendingMove prev (e :: rest) =
      spec_pendingMove ((spec_arrowPress e).getD prev) rest := by
  unfold spec_pendingMove
  cases hd : spec_arrowPress e with
  | none => simp [List.filterMap_cons, hd]
  | some d =>
    simp only [List.filterMap_cons, hd, Option.getD_some]
    cases hl : List.filterMap spec_arrowPress rest with
    | nil => simp
    | cons a l =>
      rw [List.getLast?_eq_getLast _ (List.cons_ne_nil a l)]
      rfl

theorem pollKeys_run (evs : List KeyEvent) :
    ∀ s : KeyState,
      (pollKeys evs s = none ↔ ∃ e ∈ evs, isEscapePress e) ∧
      (∀ s1, pollKeys evs s = some s1 → s1.pmov = spec_pendingMove s.pmov evs) := by
  induction evs with
  | nil =>
    intro s
    simp [pollKeys, spec_pendingMove]
  | cons e rest ih =>
    intro s
    cases hk : keyboard e s with
    | none =>
      have he := (keyboard_eq_none_iff e s).mp hk
      simp [pollKeys, hk]
      exact Or.inl he
    | some s2 =>
      have he : ¬ isEscapePress e := by
        intro h
        rw [(keyboard_eq_none_iff e s).mpr h] at hk
        cases hk
      have hp := keyboard_pmov e s s2 hk
      obtain ⟨ih1, ih2⟩ := ih s2
      simp only [pollKeys, hk, List.mem_cons, exists_eq_or_imp, he, false_or]
      refine ⟨by simpa using ih1, ?_⟩
      intro s1 h1
      rw [spec_pendingMove_cons, ← hp]
      exact ih2 s1 h1

/-- C12: for every sequence of key events delivered by one `glfwPollEvents`, the
callbacks run to the end exactly when the sequence has no escape press, and then
`pmov` is the direction of the last arrow-key press in the sequence (Up = 1,
Left = 2, Right = 3, Down = 4), or the previous `pmov` when there is none; an
event that is not a press, or whose key is not an arrow key, leaves `pmov` as it
was. -/
theorem pollKeys_last_arrow_press (s : KeyState) (evs : List KeyEvent) :
    (pollKeys evs s = none ↔ ∃ e ∈ evs, isEscapePress e) ∧
    (∀ s1, pollKeys evs s = some s1 → s1.pmov = spec_pendingMove s.pmov evs) ∧
    (∀ e s1, keyboard e s = some s1 →
      (e.action ≠ GLFW_PRESS ∨
        (e.key ≠ GLFW_KEY_UP ∧ e.key ≠ GLFW_KEY_DOWN ∧ e.key ≠ GLFW_KEY_LEFT ∧
          e.key ≠ GLFW_KEY_RIGHT)) →
      s1.pmov = s.pmov) := by
  refine ⟨(pollKeys_run evs s).1, (pollKeys_run evs s).2, ?_⟩
  intro e s1 h hne
  rw [keyboard_pmov e s s1 h]
  unfold spec_arrowPress
  rcases hne with hne | ⟨h1, h2, h3, h4⟩
  · simp [hne]
  · simp [h1, h2, h3, h4]

/-- Witness for C12: Up pressed, Right released, Left pressed, Left repeated and
`C` released leave Left (2) pending. -/
theorem pollKeys_last_arrow_press_witness :
    ∃ s1,
      pollKeys
          [⟨GLFW_KEY_UP, 0, GLFW_PRESS, 0⟩, ⟨GLFW_KEY_RIGHT, 0, GLFW_RELEASE, 0⟩,
           ⟨GLFW_KEY_LEFT, 0, GLFW_PRESS, 0⟩, ⟨GLFW_KEY_LEFT, 0, 2, 0⟩,
           ⟨GLFW_KEY_C, 0, GLFW_RELEASE, 0⟩]
          ⟨0, true, true⟩ = some s1 ∧
      s1.pmov = 2 := by
  refine ⟨⟨2, false, true⟩, by decide, ?_⟩
  rw [(pollKeys_last_arrow_press ⟨0, true, true⟩
    [⟨GLFW_KEY_UP, 0, GLFW_PRESS, 0⟩, ⟨GLFW_KEY_RIGHT, 0, GLFW_RELEASE, 0⟩,
     ⟨GLFW_KEY_LEFT, 0, GLFW_PRESS, 0⟩, ⟨GLFW_KEY_LEFT, 0, 2, 0⟩,
     ⟨GLFW_KEY_C, 0, GLFW_RELEASE, 0⟩]).2.1 ⟨2, false, true⟩ (by decide)]
  decide

/-! ## Facts about the boat row -/

theorem boatz_of_draw_boat (t : ℚ) (ht : 0 ≤ t) (g : Game) :
    (draw_boat t g).boatz = 2 * ((⌊t⌋ % 10 : ℤ) : ℚ) := by
  have hm := glfwGetTimeInt_tmod t ht
  by_cases h0 : ⌊t⌋ % 10 = 0
  · simp [draw_boat, hm, h0]
  · have e : draw_boat t g = { g with boatz := ((⌊t⌋ % 10 * 2 : Int) : ℚ) } := by
      simp only [draw_boat, hm, h0, if_false]
    rw [e]
    push_cast
    ring

theorem boatRows_eq :
    {z : ℚ | ∃ t : ℚ, ∃ g : Game, 0 ≤ t ∧ t < 2 ^ 31 ∧ (draw_boat t g).boatz = z} =
      ((Finset.range 10).image (fun k : ℕ => 2 * (k : ℚ)) : Set ℚ) := by
  ext z
  simp only [Set.mem_setOf_eq, Finset.coe_image, Finset.coe_range, Set.mem_image, Set.mem_Iio]
  constructor
  · rintro ⟨t, g, ht, _, h⟩
    rw [boatz_of_draw_boat t ht g] at h
    have h1 : 0 ≤ ⌊t⌋ % 10 := Int.emod_nonneg _ (by norm_num)
    have h2 : ⌊t⌋ % 10 < 10 := Int.emod_lt_of_pos _ (by norm_num)
    refine ⟨(⌊t⌋ % 10).toNat, by omega, ?_⟩
    rw [← h]
    congr 1
    have : (((⌊t⌋ % 10).toNat : ℤ) : ℚ) = ((⌊t⌋ % 10 : ℤ) : ℚ) := by
      rw [Int.toNat_of_nonneg h1]
    exact_mod_cast this
  · rintro ⟨k, hk, h⟩
    have hk31 : (k : ℚ) < 2 ^ 31 := by
      have : (k : ℚ) < 10 := by exact_mod_cast hk
      linarith
    refine ⟨(k : ℚ), initialGame, by positivity, hk31, ?_⟩
    rw [boatz_of_draw_boat _ (by positivity), ← h]
    congr 1
    have : ⌊(k : ℚ)⌋ = (k : ℤ) := Int.floor_natCast k
    rw [this]
    have : ((k : ℤ) % 10) = (k : ℤ) := Int.emod_eq_of_lt (by omega) (by omega)
    rw [this]
    simp

theorem boatRows_ncard :
    Set.ncard {z : ℚ | ∃ t : ℚ, ∃ g : Game, 0 ≤ t ∧ t < 2 ^ 31 ∧ (draw_boat t g).boatz = z} = 10 := by
  rw [boatRows_eq, Set.ncard_coe_Finset, Finset.card_image_of_injective, Finset.card_range]
  intro a b h
  have : (a : ℚ) = b := by
    simp only at h
    linarith
  exact_mod_cast this

theorem draw_boat_period (t : ℚ) (ht : 0 ≤ t) (g g2 : Game) :
    (draw_boat (t + 10) g).boatz = (draw_boat t g2).boatz := by
  rw [boatz_of_draw_boat t ht, boatz_of_draw_boat (t + 10) (by linarith)]
  have : ⌊t + 10⌋ = ⌊t⌋ + 10 := by
    simp
  rw [this]
  simp

/-- C13 (counterexample): the boat rows at the clock readings 0, 1, 2, 3, 4, 5 are
the six different values 0, 2, 4, 6, 8, 10, and the number of rows taken over the
readings `0 ≤ t < 2^31` is not 5. -/
theorem boat_rows_counterexample :
    [0, 1, 2, 3, 4, 5].map (fun t : ℚ => (draw_boat t initialGame).boatz) =
      [0, 2, 4, 6, 8, 10] ∧
    ([0, 2, 4, 6, 8, 10] : List ℚ).Nodup ∧
    Set.ncard {z : ℚ | ∃ t : ℚ, ∃ g : Game, 0 ≤ t ∧ t < 2 ^ 31 ∧ (draw_boat t g).boatz = z} ≠ 5 := by
  refine ⟨?_, ?_, ?_⟩
  · simp only [List.map_cons, List.map_nil]
    rw [boatz_of_draw_boat 0 (by norm_num), boatz_of_draw_boat 1 (by norm_num),
      boatz_of_draw_boat 2 (by norm_num), boatz_of_draw_boat 3 (by norm_num),
      boatz_of_draw_boat 4 (by norm_num), boatz_of_draw_boat 5 (by norm_num)]
    norm_num
  · norm_num
  · rw [boatRows_ncard]
    norm_num

/-- C13 (amended): over the clock readings `0 ≤ t < 2^31` (the readings that the
conversion to `int` holds) the boat row computed by `draw_boat` takes exactly 10
distinct values, `0, 2, ..., 18`, and the row is periodic with period 10 seconds
on this range (`t + 10 < 2^31`), whatever the prior boat state. -/
theorem boat_rows_ten_values :
    {z : ℚ | ∃ t : ℚ, ∃ g : Game, 0 ≤ t ∧ t < 2 ^ 31 ∧ (draw_boat t g).boatz = z} =
      ((Finset.range 10).image (fun k : ℕ => 2 * (k : ℚ)) : Set ℚ) ∧
    Set.ncard {z : ℚ | ∃ t : ℚ, ∃ g : Game, 0 ≤ t ∧ t < 2 ^ 31 ∧ (draw_boat t g).boatz = z} = 10 ∧
    (∀ (t : ℚ) (g g2 : Game), 0 ≤ t → t + 10 < 2 ^ 31 →
      (draw_boat (t + 10) g).boatz = (draw_boat t g2).boatz) :=
  ⟨boatRows_eq, boatRows_ncard, fun t g g2 ht _ => draw_boat_period t ht g g2⟩

/-! ## Facts about runs of drowning frames -/

theorem decrements_dead (y : ℚ) (h : y < -1) : (⌊(y + 1) / (1 / 2)⌋ + 1).toNat = 0 := by
  have h1 : (y + 1) / (1 / 2) < 0 :=
    div_neg_of_neg_of_pos (by linarith) (by norm_num)
  have h2 : ⌊(y + 1) / (1 / 2)⌋ < 0 := by
    rw [Int.floor_lt]
    exact_mod_cast h1
  omega

theorem decrements_alive (y : ℚ) (h : y ≥ -1) :
    0 ≤ ⌊(y + 1) / (1 / 2)⌋ ∧
    ⌊(y - 1 / 2 + 1) / (1 / 2)⌋ = ⌊(y + 1) / (1 / 2)⌋ - 1 := by
  constructor
  · rw [Int.floor_nonneg]
    apply div_nonneg
    · linarith
    · norm_num
  · have : (y - 1 / 2 + 1) / (1 / 2) = (y + 1) / (1 / 2) - 1 := by
      field_simp
      ring
    rw [this, Int.floor_sub_one]

theorem runFrames_drowning_count (fs : List FrameInput) :
    ∀ g : Game,
      (∀ i ∈ fs, drowning { g with pmov := i.pmov, boatx := i.boatx, boatz := i.boatz }) →
      (fs.length ≤ (⌊(g.player_pos1 + 1) / (1 / 2)⌋ + 1).toNat →
        (runFrames g fs).1 = Outcome.drawn ∧
        (runFrames g fs).2.player_pos1 = g.player_pos1 - (fs.length : ℚ) / 2) ∧
      ((⌊(g.player_pos1 + 1) / (1 / 2)⌋ + 1).toNat < fs.length →
        (runFrames g fs).1 = Outcome.gameOver ∧
        (runFrames g fs).2.player_pos1 =
          g.player_pos1 - (((⌊(g.player_pos1 + 1) / (1 / 2)⌋ + 1).toNat : ℕ) : ℚ) / 2) := by
  induction fs with
  | nil =>
    intro g _
    simp [runFrames]
  | cons i rest ih =>
    intro g h
    by_cases hy : g.player_pos1 < -1
    · rw [decrements_dead _ hy]
      simp [runFrames, frame_dead g i hy]
    · have hy1 : g.player_pos1 ≥ -1 := not_lt.mp hy
      have hd := h i (List.mem_cons_self i rest)
      have hrest : ∀ j ∈ rest,
          drowning
            { ({ g with player_pos1 := g.player_pos1 - 1 / 2, pmov := i.pmov, boatx := i.boatx,
                        boatz := i.boatz } : Game) with
              pmov := j.pmov, boatx := j.boatx, boatz := j.boatz } := by
        intro j hj
        have := h j (List.mem_cons_of_mem i hj)
        simpa [drowning] using this
      obtain ⟨ih1, ih2⟩ := ih _ hrest
      obtain ⟨hF0, hF1⟩ := decrements_alive g.player_pos1 hy1
      simp only [runFrames, frame_player_pos g i hy1 hd, List.length_cons]
      simp only [hF1] at ih1 ih2
      have e1 : (⌊(g.player_pos1 + 1) / (1 / 2)⌋ - 1 + 1).toNat + 1 =
          (⌊(g.player_pos1 + 1) / (1 / 2)⌋ + 1).toNat := by omega
      constructor
      · intro hlen
        obtain ⟨h1, h2⟩ := ih1 (by omega)
        refine ⟨h1, ?_⟩
        rw [h2]
        push_cast
        ring
      · intro hlen
        obtain ⟨h1, h2⟩ := ih2 (by omega)
        refine ⟨h1, ?_⟩
        rw [h2, ← e1]
        push_cast
        ring

/-- C14: from an alive state whose position is out of bounds and whose height is a
value on which the binary32 subtraction is exact (`exactF32`, which the heights of
all later frames then are as well), every later frame is a drowning frame, for
every pending move and boat position: `x` and `z` never change, a run of at most `⌊(y+1)/0.5⌋ + 1` frames is alive at the end with `0.5`
of height lost per frame, and a longer run has reported the game over after
exactly `⌊(y+1)/0.5⌋ + 1` decrements.  From `y = 2` the height is `-1` after 6
frames, `-1.5` after 7 frames, and the 8th evaluation reports the game over. -/
theorem out_of_bounds_dies (g : Game) (fs : List FrameInput)
    (halive : g.player_pos1 ≥ -1)
    (hoob : outOfBounds g.player_pos0 g.player_pos2)
    (hy : exactF32 g.player_pos1) :
    exactF32 (runFrames g fs).2.player_pos1 ∧
    (runFrames g fs).2.player_pos0 = g.player_pos0 ∧
    (runFrames g fs).2.player_pos2 = g.player_pos2 ∧
    (fs.length ≤ ⌊(g.player_pos1 + 1) / (1 / 2)⌋.toNat + 1 →
      (runFrames g fs).1 = Outcome.drawn ∧
      (runFrames g fs).2.player_pos1 = g.player_pos1 - (fs.length : ℚ) / 2) ∧
    (⌊(g.player_pos1 + 1) / (1 / 2)⌋.toNat + 1 < fs.length →
      (runFrames g fs).1 = Outcome.gameOver ∧
      (runFrames g fs).2.player_pos1 =
        g.player_pos1 - ((⌊(g.player_pos1 + 1) / (1 / 2)⌋.toNat + 1 : ℕ) : ℚ) / 2) ∧
    (g.player_pos1 = 2 →
      (fs.length = 6 →
        (runFrames g fs).1 = Outcome.drawn ∧ (runFrames g fs).2.player_pos1 = -1) ∧
      (fs.length = 7 →
        (runFrames g fs).1 = Outcome.drawn ∧ (runFrames g fs).2.player_pos1 = -3 / 2) ∧
      (fs.length = 8 →
        (runFrames g fs).1 = Outcome.gameOver ∧ (runFrames g fs).2.player_pos1 = -3 / 2)) := by
  have hd : ∀ i ∈ fs,
      drowning { g with pmov := i.pmov, boatx := i.boatx, boatz := i.boatz } := by
    intro i _
    rw [drowning_iff]
    exact Or.inl hoob
  obtain ⟨hx, hz, _, _⟩ := runFrames_drowning fs g hd
  obtain ⟨h1, h2⟩ := runFrames_drowning_count fs g hd
  have hF := (decrements_alive g.player_pos1 halive).1
  have e : (⌊(g.player_pos1 + 1) / (1 / 2)⌋ + 1).toNat =
      ⌊(g.player_pos1 + 1) / (1 / 2)⌋.toNat + 1 := by omega
  rw [e] at h1 h2
  refine ⟨runFrames_exactF32 fs g hy, hx, hz, h1, h2, ?_⟩
  intro hy
  have hfl : ⌊(g.player_pos1 + 1) / (1 / 2)⌋ = 6 := by
    rw [hy]
    norm_num
  rw [hfl] at h1 h2
  have e6 : Int.toNat 6 = 6 := rfl
  rw [e6] at h1 h2
  refine ⟨?_, ?_, ?_⟩
  · intro hl
    obtain ⟨a, b⟩ := h1 (by omega)
    refine ⟨a, ?_⟩
    rw [b, hy, hl]
    norm_num
  · intro hl
    obtain ⟨a, b⟩ := h1 (by omega)
    refine ⟨a, ?_⟩
    rw [b, hy, hl]
    norm_num
  · intro hl
    obtain ⟨a, b⟩ := h2 (by omega)
    refine ⟨a, ?_⟩
    rw [b, hy]
    norm_num

/-- Witness for C14: one step left of the board at height 2, the 8th frame reports
the game over whatever is pressed and wherever the boat is. -/
theorem out_of_bounds_dies_witness :
    (runFrames
        { player_pos0 := -2, player_pos1 := 2, player_pos2 := 2, pmov := 0,
          boatx := 12, boatz := 0 }
        [⟨3, 12, 0⟩, ⟨3, 12, 0⟩, ⟨1, 12, 2⟩, ⟨0, 12, 2⟩, ⟨4, 12, 2⟩, ⟨2, 12, 4⟩, ⟨3, 12, 4⟩,
         ⟨3, 12, 4⟩]).1 = Outcome.gameOver :=
  ((out_of_bounds_dies
    { player_pos0 := -2, player_pos1 := 2, player_pos2 := 2, pmov := 0,
      boatx := 12, boatz := 0 }
    [⟨3, 12, 0⟩, ⟨3, 12, 0⟩, ⟨1, 12, 2⟩, ⟨0, 12, 2⟩, ⟨4, 12, 2⟩, ⟨2, 12, 4⟩, ⟨3, 12, 4⟩,
     ⟨3, 12, 4⟩]
    (by norm_num) (by norm_num [outOfBounds])
    ⟨4, by norm_num, by norm_num, by norm_num⟩).2.2.2.2.2 rfl).2.2 rfl |>.1

/-! ## Facts about reachable states -/

theorem frame_inv (g : Game) (i : FrameInput) (h : reachableInv g) :
    reachableInv (frame g i).2 ∧ (frame g i).2.player_pos1 ≤ g.player_pos1 := by
  obtain ⟨⟨a, ha, ha1, ha2⟩, ⟨b, hb, hb1, hb2⟩, ⟨k, hk, hk1, hk2⟩⟩ := h
  by_cases hy : g.player_pos1 < -1
  · rw [frame_dead g i hy]
    exact ⟨⟨⟨a, ha, ha1, ha2⟩, ⟨b, hb, hb1, hb2⟩, ⟨k, hk, hk1, hk2⟩⟩, le_refl _⟩
  · have hy1 : g.player_pos1 ≥ -1 := not_lt.mp hy
    by_cases hd : drowning { g with pmov := i.pmov, boatx := i.boatx, boatz := i.boatz }
    · rw [frame_player_pos g i hy1 hd]
      refine ⟨⟨⟨a, ha, ha1, ha2⟩, ⟨b, hb, hb1, hb2⟩, ⟨k - 1, ?_, ?_, by omega⟩⟩, ?_⟩
      · show g.player_pos1 - 1 / 2 = ((k - 1 : ℤ) : ℚ) / 2
        rw [hk]
        push_cast
        ring
      · have : (-2 : ℚ) ≤ (k : ℚ) := by
          rw [hk] at hy1
          linarith
        have : (-2 : ℤ) ≤ k := by exact_mod_cast this
        omega
      · show g.player_pos1 - 1 / 2 ≤ g.player_pos1
        linarith
    · have e : frame g i =
          (Outcome.drawn, applyMove { g with pmov := i.pmov, boatx := i.boatx, boatz := i.boatz }) :=
        draw_player_safe { g with pmov := i.pmov, boatx := i.boatx, boatz := i.boatz } hy1 hd
      rw [e]
      have hd2 : ¬ (g.player_pos0 < 0 ∨ g.player_pos0 ≥ 30 ∨ g.player_pos2 ≥ 20 ∨
          g.player_pos2 < 0 ∨
          (g.player_pos0 ≥ 12 ∧ g.player_pos0 < 14 ∧ g.player_pos2 ≠ i.boatz)) := hd
      push_neg at hd2
      obtain ⟨hx0, hx1, hz1, hz0, _⟩ := hd2
      have ha3 : (0 : ℚ) ≤ (a : ℚ) := by rw [ha] at hx0; linarith
      have ha4 : (a : ℚ) < 15 := by rw [ha] at hx1; linarith
      have hb3 : (0 : ℚ) ≤ (b : ℚ) := by rw [hb] at hz0; linarith
      have hb4 : (b : ℚ) < 10 := by rw [hb] at hz1; linarith
      have ha5 : (0 : ℤ) ≤ a := by exact_mod_cast ha3
      have ha6 : a < 15 := by exact_mod_cast ha4
      have hb5 : (0 : ℤ) ≤ b := by exact_mod_cast hb3
      have hb6 : b < 10 := by exact_mod_cast hb4
      obtain ⟨ey, hpos⟩ :=
        applyMove_cases { g with pmov := i.pmov, boatx := i.boatx, boatz := i.boatz }
      refine ⟨⟨?_, ?_, ⟨k, by rw [ey]; exact hk, hk1, hk2⟩⟩, by rw [ey]⟩
      · rcases hpos with ⟨ex, _⟩ | ⟨ex, _⟩ | ⟨ex, _⟩ | ⟨ex, _⟩ | ⟨ex, _⟩
        · exact ⟨a, by rw [ex]; exact ha, ha1, ha2⟩
        · refine ⟨a + 1, ?_, by omega, by omega⟩
          rw [ex]
          show g.player_pos0 + 2 = 2 * ((a + 1 : ℤ) : ℚ)
          rw [ha]
          push_cast
          ring
        · refine ⟨a - 1, ?_, by omega, by omega⟩
          rw [ex]
          show g.player_pos0 - 2 = 2 * ((a - 1 : ℤ) : ℚ)
          rw [ha]
          push_cast
          ring
        · exact ⟨a, by rw [ex]; exact ha, ha1, ha2⟩
        · exact ⟨a, by rw [ex]; exact ha, ha1, ha2⟩
      · rcases hpos with ⟨_, ez⟩ | ⟨_, ez⟩ | ⟨_, ez⟩ | ⟨_, ez⟩ | ⟨_, ez⟩
        · exact ⟨b, by rw [ez]; exact hb, hb1, hb2⟩
        · exact ⟨b, by rw [ez]; exact hb, hb1, hb2⟩
        · exact ⟨b, by rw [ez]; exact hb, hb1, hb2⟩
        · refine ⟨b + 1, ?_, by omega, by omega⟩
          rw [ez]
          show g.player_pos2 + 2 = 2 * ((b + 1 : ℤ) : ℚ)
          rw [hb]
          push_cast
          ring
        · refine ⟨b - 1, ?_, by omega, by omega⟩
          rw [ez]
          show g.player_pos2 - 2 = 2 * ((b - 1 : ℤ) : ℚ)
          rw [hb]
          push_cast
          ring

theorem frame_player_pos1_le (g : Game) (i : FrameInput) :
    (frame g i).2.player_pos1 ≤ g.player_pos1 := by
  by_cases hy : g.player_pos1 < -1
  · rw [frame_dead g i hy]
  · have hy1 : g.player_pos1 ≥ -1 := not_lt.mp hy
    by_cases hd : drowning { g with pmov := i.pmov, boatx := i.boatx, boatz := i.boatz }
    · rw [frame_player_pos g i hy1 hd]
      show g.player_pos1 - 1 / 2 ≤ g.player_pos1
      linarith
    · have e : frame g i =
          (Outcome.drawn, applyMove { g with pmov := i.pmov, boatx := i.boatx, boatz := i.boatz }) :=
        draw_player_safe { g with pmov := i.pmov, boatx := i.boatx, boatz := i.boatz } hy1 hd
      rw [e, applyMove_player_pos1]

theorem runFrames_inv (fs : List FrameInput) :
    ∀ g : Game, reachableInv g → reachableInv (runFrames g fs).2 := by
  induction fs with
  | nil =>
    intro g h
    exact h
  | cons i rest ih =>
    intro g h
    have h1 := (frame_inv g i h).1
    cases hf : frame g i with
    | mk o g1 =>
      rw [hf] at h1
      cases o with
      | gameOver =>
        simp only [runFrames, hf]
        exact h1
      | drawn =>
        simp only [runFrames, hf]
        exact ih g1 h1

theorem runFrames_snoc (fs : List FrameInput) (i : FrameInput) :
    ∀ g : Game,
      runFrames g (fs ++ [i]) =
        if (runFrames g fs).1 = Outcome.gameOver then runFrames g fs
        else frame (runFrames g fs).2 i := by
  induction fs with
  | nil =>
    intro g
    cases hf : frame g i with
    | mk o g1 =>
      cases o <;> simp [runFrames, hf]
  | cons j rest ih =>
    intro g
    cases hf : frame g j with
    | mk o g1 =>
      cases o with
      | gameOver => simp [runFrames, hf]
      | drawn =>
        simp only [List.cons_append, runFrames, hf]
        exact ih g1

theorem runFrames_snoc_player_pos1_le (g : Game) (fs : List FrameInput) (i : FrameInput) :
    (runFrames g (fs ++ [i])).2.player_pos1 ≤ (runFrames g fs).2.player_pos1 := by
  rw [runFrames_snoc]
  split_ifs
  · exact le_refl _
  · exact frame_player_pos1_le _ i

theorem create_player_inv (g0 : Game) : reachableInv (create_player g0) := by
  refine ⟨⟨1, ?_, by norm_num, by norm_num⟩, ⟨1, ?_, by norm_num, by norm_num⟩,
    ⟨4, ?_, by norm_num, by norm_num⟩⟩ <;> norm_num [create_player]

/-- C15: in every state reachable from the position `(2,2,2)` set by
`create_player` by any sequence of frames (any pending moves, any boat positions),
`x` and `z` are even integers with `-2 ≤ x ≤ 30` and `-2 ≤ z ≤ 20`, the height is
a multiple of `0.5` with `-1.5 ≤ y ≤ 2`, and one more frame never increases the
height. -/
theorem reachable_invariant (g0 : Game) (fs : List FrameInput) (i : FrameInput) :
    (∃ a : ℤ, (runFrames (create_player g0) fs).2.player_pos0 = 2 * (a : ℚ)) ∧
    -2 ≤ (runFrames (create_player g0) fs).2.player_pos0 ∧
    (runFrames (create_player g0) fs).2.player_pos0 ≤ 30 ∧
    (∃ b : ℤ, (runFrames (create_player g0) fs).2.player_pos2 = 2 * (b : ℚ)) ∧
    -2 ≤ (runFrames (create_player g0) fs).2.player_pos2 ∧
    (runFrames (create_player g0) fs).2.player_pos2 ≤ 20 ∧
    (∃ k : ℤ, (runFrames (create_player g0) fs).2.player_pos1 = (k : ℚ) * (1 / 2)) ∧
    -3 / 2 ≤ (runFrames (create_player g0) fs).2.player_pos1 ∧
    (runFrames (create_player g0) fs).2.player_pos1 ≤ 2 ∧
    (runFrames (create_player g0) (fs ++ [i])).2.player_pos1 ≤
      (runFrames (create_player g0) fs).2.player_pos1 := by
  obtain ⟨⟨a, ha, ha1, ha2⟩, ⟨b, hb, hb1, hb2⟩, ⟨k, hk, hk1, hk2⟩⟩ :=
    runFrames_inv fs (create_player g0) (create_player_inv g0)
  have ha1q : (-1 : ℚ) ≤ (a : ℚ) := by exact_mod_cast ha1
  have ha2q : (a : ℚ) ≤ 15 := by exact_mod_cast ha2
  have hb1q : (-1 : ℚ) ≤ (b : ℚ) := by exact_mod_cast hb1
  have hb2q : (b : ℚ) ≤ 10 := by exact_mod_cast hb2
  have hk1q : (-3 : ℚ) ≤ (k : ℚ) := by exact_mod_cast hk1
  have hk2q : (k : ℚ) ≤ 4 := by exact_mod_cast hk2
  refine ⟨⟨a, ha⟩, ?_, ?_, ⟨b, hb⟩, ?_, ?_, ⟨k, ?_⟩, ?_, ?_,
    runFrames_snoc_player_pos1_le _ fs i⟩
  · rw [ha]; linarith
  · rw [ha]; linarith
  · rw [hb]; linarith
  · rw [hb]; linarith
  · rw [hk]; ring
  · rw [hk]; linarith
  · rw [hk]; linarith

/-- C16: in every state reachable from the position `(2,2,2)` set by
`create_player` in which the player is in bounds (`0 ≤ x < 30`, `0 ≤ z < 20`),
exactly one tile of the list built by `initGL` is drawn by `draw_block` at the
player's `(x, z)`, that is, has `2 * tile.x = x` and `2 * tile.z = z`. -/
theorem reachable_on_one_tile (g0 : Game) (fs : List FrameInput)
    (hx0 : 0 ≤ (runFrames (create_player g0) fs).2.player_pos0)
    (hx1 : (runFrames (create_player g0) fs).2.player_pos0 < 30)
    (hz0 : 0 ≤ (runFrames (create_player g0) fs).2.player_pos2)
    (hz1 : (runFrames (create_player g0) fs).2.player_pos2 < 20) :
    (initGL.filter (fun b =>
      (draw_block_translate b).1 = (runFrames (create_player g0) fs).2.player_pos0 ∧
      (draw_block_translate b).2.2 = (runFrames (create_player g0) fs).2.player_pos2)).length
      = 1 := by
  obtain ⟨⟨a, ha, _, _⟩, ⟨b, hb, _, _⟩, _⟩ :=
    runFrames_inv fs (create_player g0) (create_player_inv g0)
  rw [ha] at hx0 hx1
  rw [hb] at hz0 hz1
  have ha0 : (0 : ℚ) ≤ (a : ℚ) := by linarith
  have ha1 : (a : ℚ) < 15 := by linarith
  have hb0 : (0 : ℚ) ≤ (b : ℚ) := by linarith
  have hb1 : (b : ℚ) < 10 := by linarith
  have ha2 : (0 : ℤ) ≤ a := by exact_mod_cast ha0
  have ha3 : a < 15 := by exact_mod_cast ha1
  have hb2 : (0 : ℤ) ≤ b := by exact_mod_cast hb0
  have hb3 : b < 10 := by exact_mod_cast hb1
  have hc := initGL_filter_length ⟨a.toNat, by omega⟩ ⟨b.toNat, by omega⟩
  have ea : ((a.toNat : ℕ) : ℤ) = a := Int.toNat_of_nonneg ha2
  have eb : ((b.toNat : ℕ) : ℤ) = b := Int.toNat_of_nonneg hb2
  simp only [ea, eb] at hc
  have hfilter :
      initGL.filter (fun t =>
        decide ((draw_block_translate t).1 = 2 * (a : ℚ) ∧
          (draw_block_translate t).2.2 = 2 * (b : ℚ))) =
      initGL.filter (fun t => decide (t.x = a ∧ t.z = b)) := by
    apply List.filter_congr
    intro t _
    apply decide_eq_decide.mpr
    unfold draw_block_translate
    constructor
    · rintro ⟨h1, h2⟩
      simp only at h1 h2
      constructor
      · have : ((t.x : ℤ) : ℚ) = (a : ℚ) := by push_cast at h1; linarith
        exact_mod_cast this
      · have : ((t.z : ℤ) : ℚ) = (b : ℚ) := by push_cast at h2; linarith
        exact_mod_cast this
    · rintro ⟨h1, h2⟩
      simp only
      rw [h1, h2]
      push_cast
      exact ⟨rfl, rfl⟩
  rw [ha, hb, hfilter]
  exact hc

/-- Witness for C16: after Right and Down from the start the player stands on
exactly one tile. -/
theorem reachable_on_one_tile_witness :
    (initGL.filter (fun b =>
      (draw_block_translate b).1 =
        (runFrames (create_player initialGame) [⟨3, 0, 0⟩, ⟨4, 12, 0⟩]).2.player_pos0 ∧
      (draw_block_translate b).2.2 =
        (runFrames (create_player initialGame) [⟨3, 0, 0⟩, ⟨4, 12, 0⟩]).2.player_pos2)).length
      = 1 :=
  reachable_on_one_tile initialGame [⟨3, 0, 0⟩, ⟨4, 12, 0⟩]
    (by norm_num [runFrames, frame, draw_player, drowning, applyMove, create_player, initialGame])
    (by norm_num [runFrames, frame, draw_player, drowning, applyMove, create_player, initialGame])
    (by norm_num [runFrames, frame, draw_player, drowning, applyMove, create_player, initialGame])
    (by norm_num [runFrames, frame, draw_player, drowning, applyMove, create_player, initialGame])

end CannonGame
